import Mathlib

/-!
Shallow embedding of the Portainer authorization-aware proxy core:
the volume list filter (src/api/http/proxy/filter.go), the proxy
transport and its enforcement strategies
(src/api/http/proxy/transport.go), and the data model
(src/api/portainer.go).  Collaborators (identity resolver, team
service, resource-control registry, engine transport) are modelled as
fields of an explicit environment; functions of the proxy package that
are referenced by the sources but whose definitions are not part of the
excerpt are modelled from the spec and marked as such.
-/

namespace Portainer

/-- UserID represents a user identifier (Go int). -/
abbrev UserID := Int

/-- TeamID represents a team identifier (Go int). -/
abbrev TeamID := Int

/-- UserRole represents the role of a user: administrator or regular user. -/
abbrev UserRole := Int

/-- AdministratorRole represents an administrator user role (iota value 1). -/
def AdministratorRole : UserRole := 1

/-- StandardUserRole represents a regular user role (iota value 2). -/
def StandardUserRole : UserRole := 2

/-- TokenData represents the data embedded in a JWT token. -/
structure TokenData where
  ID : UserID
  Username : String
  Role : UserRole
deriving Repr, DecidableEq

/-- Team represents a list of user accounts. -/
structure Team where
  ID : TeamID
  Name : String
deriving Repr, DecidableEq

/-- ResourceControl represents a reference to a Docker resource with specific access controls. -/
structure ResourceControl where
  OwnerID : UserID
  AccessLevel : Int
  ID : Int
  ResourceID : String
  Users : List UserID
  Teams : List TeamID
deriving Repr, DecidableEq

/-- JSON-like values: the dynamically-shaped engine payloads handled by the
filter (Go interface values produced by JSON decoding).  Objects are
association lists of field name and value. -/
inductive JValue where
  | null : JValue
  | bool : Bool → JValue
  | num : Int → JValue
  | str : String → JValue
  | arr : List JValue → JValue
  | obj : List (String × JValue) → JValue

/-- Go map lookup on a decoded JSON object: an absent key and a key mapped to
JSON null both read back as nil (here JValue.null). -/
def lookupField (fields : List (String × JValue)) (key : String) : JValue :=
  match fields.find? (fun field => field.fst == key) with
  | none => JValue.null
  | some field => field.snd

/-- Errors of the proxy core.  The error values surfaced by the external
collaborators are drawn from the same type so that they propagate verbatim. -/
inductive ProxyError where
  | dockerVolumeIdentifierNotFound : ProxyError
  | authContextMissing : ProxyError
  | teamLookupFailed : ProxyError
  | registryLookupFailed : ProxyError
  | engineTransportFailed : ProxyError
  | responseDecodeFailed : ProxyError
deriving Repr, DecidableEq

/-- Result of running Go code that can panic (unchecked type assertion),
return an error, or return a value. -/
inductive Outcome (α : Type) where
  | panicked : Outcome α
  | errored : ProxyError → Outcome α
  | ok : α → Outcome α

/-- Modelled from the spec: the constant named volumeIdentifier is not under
src/.  Spec section 3 and section 6 say each resource kind carries one
identifier field whose name varies by kind, a name-like field for volumes. -/
def volumeIdentifier : String := "Name"

/-- Modelled from the spec: getResourceControlByResourceID is not under src/.
Spec section 3 says a resource never has more than one active control record
and section 4.2 says the strategy finds the record matching the resource
identifier, no match meaning public. -/
def getResourceControlByResourceID (resourceID : String)
    (resourceControls : List ResourceControl) : Option ResourceControl :=
  resourceControls.find? (fun rc => rc.ResourceID == resourceID)

/-- Modelled from the spec: canUserAccessResource is not under src/.  Spec
section 4.5 allows when the control record is absent, the caller id is among
the control users, or one of the caller team ids is among the control teams.
The administrator disjunct of the spec predicate is discharged at the call
sites, which only restrict or filter non-administrators. -/
def canUserAccessResource (userID : UserID) (userTeamIDs : List TeamID)
    (resourceControl : Option ResourceControl) : Bool :=
  match resourceControl with
  | none => true
  | some rc =>
      rc.Users.contains userID ||
      rc.Teams.any (fun teamID => userTeamIDs.contains teamID)

/-- The access-decision predicate written from the spec words (section 4.5):
allow iff the control is null, or the caller is an administrator, or the
caller id is a member of the control users set, or the caller group ids
intersect the control groups set. -/
def allowedSpec (isAdmin : Bool) (userID : UserID) (groups : List TeamID)
    (control : Option ResourceControl) : Bool :=
  control.isNone || isAdmin ||
    (match control with
     | none => false
     | some c =>
         decide (userID ∈ c.Users) || decide (∃ g ∈ groups, g ∈ c.Teams))

/-- Insert-or-replace on a JSON object, the behaviour of a Go map store. -/
def setField : List (String × JValue) → String → JValue → List (String × JValue)
  | [], key, v => [(key, v)]
  | (k, w) :: rest, key, v =>
      if k == key then (key, v) :: rest else (k, w) :: setField rest key v

/-- Ownership annotation block built from a resource control record. -/
def ownershipMetadata (resourceControl : ResourceControl) : JValue :=
  JValue.obj
    [("ResourceControl",
      JValue.obj
        [("Users", JValue.arr (resourceControl.Users.map JValue.num)),
         ("Teams", JValue.arr (resourceControl.Teams.map JValue.num))])]

/-- Modelled from the spec: decorateObject is not under src/.  Spec sections
4.6 and 6 say a kept document with a matching control record has ownership
metadata merged into it as an additional ownership annotation block. -/
def decorateObject (objectFields : List (String × JValue))
    (resourceControl : ResourceControl) : List (String × JValue) :=
  setField objectFields "Portainer" (ownershipMetadata resourceControl)

/-- filterVolumeList from src/api/http/proxy/filter.go.  Each element is cast
to a JSON object (panicking otherwise), its identifier field read (nil means
the whole operation fails with ErrDockerVolumeIdentifierNotFound) and cast to
a string (panicking otherwise); a volume with no control record is kept
unchanged, one with a record is kept decorated when the caller may access it
and dropped otherwise. -/
def filterVolumeList (volumeData : List JValue)
    (resourceControls : List ResourceControl) (userID : UserID)
    (userTeamIDs : List TeamID) : Outcome (List JValue) :=
  match volumeData with
  | [] => Outcome.ok []
  | volume :: rest =>
    match volume with
    | JValue.obj volumeObject =>
      match lookupField volumeObject volumeIdentifier with
      | JValue.null => Outcome.errored ProxyError.dockerVolumeIdentifierNotFound
      | JValue.str volumeID =>
        match getResourceControlByResourceID volumeID resourceControls with
        | none =>
          match filterVolumeList rest resourceControls userID userTeamIDs with
          | Outcome.ok filtered => Outcome.ok (JValue.obj volumeObject :: filtered)
          | other => other
        | some resourceControl =>
          if canUserAccessResource userID userTeamIDs (some resourceControl) then
            match filterVolumeList rest resourceControls userID userTeamIDs with
            | Outcome.ok filtered =>
                Outcome.ok (JValue.obj (decorateObject volumeObject resourceControl) :: filtered)
            | other => other
          else
            filterVolumeList rest resourceControls userID userTeamIDs
      | _ => Outcome.panicked
    | _ => Outcome.panicked

/-- The form in which a volume document is kept by the filter and by
decoration: decorated when a control record matches its identifier, unchanged
otherwise (and unchanged whenever the filter would not even reach the
decoration step). -/
def decorateIfMatched (resourceControls : List ResourceControl) (doc : JValue) : JValue :=
  match doc with
  | JValue.obj fields =>
    match lookupField fields volumeIdentifier with
    | JValue.str volumeID =>
      match getResourceControlByResourceID volumeID resourceControls with
      | some rc => JValue.obj (decorateObject fields rc)
      | none => doc
    | _ => doc
  | _ => doc

/-- An HTTP-shaped request: the parts the transport inspects. -/
structure Request where
  path : String
  method : String
deriving Repr, DecidableEq

/-- An HTTP-shaped response: a body and whether it is the synthetic forbidden
response. -/
structure HTTPResponse where
  body : JValue
  forbidden : Bool

/-- Modelled from the spec: writeAccessDeniedResponse is not under src/.
Spec section 6 describes it as a fixed-status forbidden synthetic response
produced with no engine round-trip. -/
def writeAccessDeniedResponse : HTTPResponse :=
  { body := JValue.null, forbidden := true }

/-- restrictedOperationContext from src/api/http/proxy/transport.go. -/
structure RestrictedOperationContext where
  isAdmin : Bool
  userID : UserID
  userTeamIDs : List TeamID
  resourceControls : List ResourceControl

/-- restrictedOperationRequest from src/api/http/proxy/transport.go: a
callback that rewrites the engine response using the operation context (the
Go version mutates the response in place and may return an error; a panic
inside the callback propagates). -/
abbrev RestrictedOperationRequest :=
  Request → HTTPResponse → RestrictedOperationContext → Outcome HTTPResponse

/-- The proxyTransport environment: the engine transport and the external
collaborators (identity resolver, team service, resource-control registry)
to which the strategies delegate.  Each collaborator result is a fixed
function of its inputs for the duration of one request, matching the
synchronous, uncached per-request lookups of the code. -/
structure ProxyTransport where
  engine : Request → Except ProxyError JValue
  tokenData : Request → Except ProxyError TokenData
  teamsByUserID : UserID → Except ProxyError (List Team)
  resourceControls : Except ProxyError (List ResourceControl)

/-- The observable result of one strategy invocation: the value returned to
the caller together with the number of times the engine transport was
invoked along the way. -/
structure RunResult where
  result : Outcome HTTPResponse
  engineCalls : Nat

/-- executeDockerRequest from src/api/http/proxy/transport.go: one round trip
on the engine transport. -/
def executeDockerRequest (p : ProxyTransport) (request : Request) : RunResult :=
  match p.engine request with
  | Except.ok responseBody =>
      { result := Outcome.ok { body := responseBody, forbidden := false },
        engineCalls := 1 }
  | Except.error e => { result := Outcome.errored e, engineCalls := 1 }

/-- restrictedOperation from src/api/http/proxy/transport.go: resolve the
caller identity; an administrator executes immediately; otherwise resolve
team memberships and the volume control records, and execute unless the
matching control record denies access, in which case the synthetic
access-denied response is returned without contacting the engine.  Any
collaborator failure aborts before engine contact. -/
def restrictedOperation (p : ProxyTransport) (request : Request)
    (resourceID : String) : RunResult :=
  match p.tokenData request with
  | Except.error e => { result := Outcome.errored e, engineCalls := 0 }
  | Except.ok tokenData =>
    if tokenData.Role ≠ AdministratorRole then
      match p.teamsByUserID tokenData.ID with
      | Except.error e => { result := Outcome.errored e, engineCalls := 0 }
      | Except.ok userTeams =>
        let userTeamIDs := userTeams.map (fun team => team.ID)
        match p.resourceControls with
        | Except.error e => { result := Outcome.errored e, engineCalls := 0 }
        | Except.ok volumeResourceControls =>
          let volumeResourceControl :=
            getResourceControlByResourceID resourceID volumeResourceControls
          if ¬ canUserAccessResource tokenData.ID userTeamIDs volumeResourceControl then
            { result := Outcome.ok writeAccessDeniedResponse, engineCalls := 0 }
          else
            executeDockerRequest p request
    else
      executeDockerRequest p request

/-- rewriteOperation from src/api/http/proxy/transport.go: build the
operation context (identity, admin flag, memberships when not an
administrator, volume control records), then execute the request against the
engine and pass the response through the operation callback.  A collaborator
failure during context building aborts before engine contact; an engine
failure is returned without invoking the callback. -/
def rewriteOperation (p : ProxyTransport) (request : Request)
    (operation : RestrictedOperationRequest) : RunResult :=
  match p.tokenData request with
  | Except.error e => { result := Outcome.errored e, engineCalls := 0 }
  | Except.ok tokenData =>
    match p.resourceControls with
    | Except.error e => { result := Outcome.errored e, engineCalls := 0 }
    | Except.ok volumeResourceControls =>
      let contextBuilt : Except ProxyError RestrictedOperationContext :=
        if tokenData.Role ≠ AdministratorRole then
          match p.teamsByUserID tokenData.ID with
          | Except.error e => Except.error e
          | Except.ok userTeams =>
              Except.ok
                { isAdmin := false, userID := tokenData.ID,
                  userTeamIDs := userTeams.map (fun team => team.ID),
                  resourceControls := volumeResourceControls }
        else
          Except.ok
            { isAdmin := true, userID := tokenData.ID, userTeamIDs := [],
              resourceControls := volumeResourceControls }
      match contextBuilt with
      | Except.error e => { result := Outcome.errored e, engineCalls := 0 }
      | Except.ok operationContext =>
        let engineRun := executeDockerRequest p request
        match engineRun.result with
        | Outcome.ok response =>
            { result := operation request response operationContext,
              engineCalls := engineRun.engineCalls }
        | other => { result := other, engineCalls := engineRun.engineCalls }

/-- administratorOperation from src/api/http/proxy/transport.go: only an
administrator may execute; anyone else receives the access-denied response
without engine contact. -/
def administratorOperation (p : ProxyTransport) (request : Request) : RunResult :=
  match p.tokenData request with
  | Except.error e => { result := Outcome.errored e, engineCalls := 0 }
  | Except.ok tokenData =>
    if tokenData.Role ≠ AdministratorRole then
      { result := Outcome.ok writeAccessDeniedResponse, engineCalls := 0 }
    else
      executeDockerRequest p request

/-- Modelled from the spec: decorateVolumeList (the administrator branch of
the list operation) is not under src/.  Spec section 4.6 with the
administrator always allowed: every document is kept, decorated when a
control record matches, and a document whose identifier field is absent
fails the whole operation. -/
def decorateVolumeList (volumeData : List JValue)
    (resourceControls : List ResourceControl) : Outcome (List JValue) :=
  match volumeData with
  | [] => Outcome.ok []
  | volume :: rest =>
    match volume with
    | JValue.obj volumeObject =>
      match lookupField volumeObject volumeIdentifier with
      | JValue.null => Outcome.errored ProxyError.dockerVolumeIdentifierNotFound
      | JValue.str volumeID =>
        let kept :=
          match getResourceControlByResourceID volumeID resourceControls with
          | some rc => JValue.obj (decorateObject volumeObject rc)
          | none => JValue.obj volumeObject
        match decorateVolumeList rest resourceControls with
        | Outcome.ok decorated => Outcome.ok (kept :: decorated)
        | other => other
      | _ => Outcome.panicked
    | _ => Outcome.panicked

/-- Modelled from the spec: volumeListOperation is not under src/.  Spec
sections 4.3 and 4.6: decode the response body as an array (a shape error
otherwise); an administrator keeps the whole list decorated, a regular user
gets filterVolumeList; the body is replaced with the result. -/
def volumeListOperation : RestrictedOperationRequest := fun _ response ctx =>
  match response.body with
  | JValue.arr volumeData =>
    let outcome :=
      if ctx.isAdmin then
        decorateVolumeList volumeData ctx.resourceControls
      else
        filterVolumeList volumeData ctx.resourceControls ctx.userID ctx.userTeamIDs
    match outcome with
    | Outcome.ok filtered =>
        Outcome.ok { body := JValue.arr filtered, forbidden := response.forbidden }
    | Outcome.errored e => Outcome.errored e
    | Outcome.panicked => Outcome.panicked
  | _ => Outcome.errored ProxyError.responseDecodeFailed

/-- Modelled from the spec: volumeInspectOperation is not under src/.  Spec
section 4.6 reuses the list algorithm for inspect-by-id by treating the
single document as a one-element sequence and mapping an empty result to a
denied outcome. -/
def volumeInspectOperation : RestrictedOperationRequest := fun _ response ctx =>
  match response.body with
  | JValue.obj _ =>
    let outcome :=
      if ctx.isAdmin then
        decorateVolumeList [response.body] ctx.resourceControls
      else
        filterVolumeList [response.body] ctx.resourceControls ctx.userID ctx.userTeamIDs
    match outcome with
    | Outcome.ok [] => Outcome.ok writeAccessDeniedResponse
    | Outcome.ok (doc :: _) =>
        Outcome.ok { body := doc, forbidden := response.forbidden }
    | Outcome.errored e => Outcome.errored e
    | Outcome.panicked => Outcome.panicked
  | _ => Outcome.errored ProxyError.responseDecodeFailed

/-- Splits a character list on the slash character. -/
def splitSlash : List Char → List (List Char)
  | [] => [[]]
  | c :: rest =>
    let segments := splitSlash rest
    if c = '/' then [] :: segments
    else
      match segments with
      | [] => [[c]]
      | seg :: segs => (c :: seg) :: segs

/-- Go path.Base restricted to the path shapes the dispatcher sees: the last
non-empty segment of the path. -/
def pathBase (p : String) : String :=
  if p = "" then "." else
  match ((splitSlash p.toList).filter (fun seg => seg ≠ [])).getLast? with
  | some seg => String.mk seg
  | none => "/"

/-- proxyVolumeRequest from src/api/http/proxy/transport.go, including its
actual control flow: in the default (by-id) case the source CALLS
rewriteOperation (for GET) and restrictedOperation but DISCARDS both return
values, then unconditionally executes the request against the engine; only
the engine side effects of the discarded calls remain. -/
def proxyVolumeRequest (p : ProxyTransport) (request : Request) : RunResult :=
  if request.path = "/volumes/create" then
    executeDockerRequest p request
  else if request.path = "/volumes/prune" then
    administratorOperation p request
  else if request.path = "/volumes" then
    rewriteOperation p request volumeListOperation
  else
    let inspectCalls :=
      if request.method = "GET" then
        (rewriteOperation p request volumeInspectOperation).engineCalls
      else 0
    let volumeID := pathBase request.path
    let restrictCalls := (restrictedOperation p request volumeID).engineCalls
    let finalRun := executeDockerRequest p request
    { result := finalRun.result,
      engineCalls := inspectCalls + restrictCalls + finalRun.engineCalls }

/-- proxyContainerRequest from src/api/http/proxy/transport.go: plain
pass-through. -/
def proxyContainerRequest (p : ProxyTransport) (request : Request) : RunResult :=
  executeDockerRequest p request

/-- proxyServiceRequest from src/api/http/proxy/transport.go: plain
pass-through. -/
def proxyServiceRequest (p : ProxyTransport) (request : Request) : RunResult :=
  executeDockerRequest p request

/-- proxyDockerRequest from src/api/http/proxy/transport.go: classify the
request by path prefix. -/
def proxyDockerRequest (p : ProxyTransport) (request : Request) : RunResult :=
  if request.path.startsWith "/containers" then
    proxyContainerRequest p request
  else if request.path.startsWith "/services" then
    proxyServiceRequest p request
  else if request.path.startsWith "/volumes" then
    proxyVolumeRequest p request
  else
    executeDockerRequest p request

/-- A well-typed volume document: a JSON object whose identifier field is
either absent (reads back nil) or holds a string.  This is the domain on
which the filter never trips over its unchecked type assertions; documents
outside it are the subject of claim C10. -/
def wellTypedVolume (v : JValue) : Prop :=
  ∃ fields, v = JValue.obj fields ∧
    (lookupField fields volumeIdentifier = JValue.null ∨
     ∃ s, lookupField fields volumeIdentifier = JValue.str s)

/-! Theorems. -/

/-- Auxiliary: storing under a key leaves lookups of other keys unchanged. -/
theorem lookupField_setField_ne (fields : List (String × JValue)) (k key : String)
    (v : JValue) (h : k ≠ key) :
    lookupField (setField fields k v) key = lookupField fields key := by
  induction fields with
  | nil => simp [setField, lookupField, h]
  | cons f rest ih =>
    rcases f with ⟨fk, fv⟩
    by_cases hk : fk = k
    · subst hk
      simp [setField, lookupField, h]
    · by_cases hkey : fk = key
      · subst hkey
        simp [setField, lookupField, hk]
      · simp only [setField, beq_iff_eq, hk, if_false]
        simpa [lookupField, hkey] using ih

/-- Auxiliary: storing the same value under the same key twice is the same as
storing it once. -/
theorem setField_setField (fields : List (String × JValue)) (k : String) (v : JValue) :
    setField (setField fields k v) k v = setField fields k v := by
  induction fields with
  | nil => simp [setField]
  | cons f rest ih =>
    rcases f with ⟨fk, fv⟩
    by_cases hk : fk = k
    · subst hk
      simp [setField]
    · simp [setField, hk, ih]

/-- Auxiliary: decoration does not change the identifier field. -/
theorem lookupField_decorateObject (fields : List (String × JValue))
    (rc : ResourceControl) :
    lookupField (decorateObject fields rc) volumeIdentifier =
      lookupField fields volumeIdentifier :=
  lookupField_setField_ne fields "Portainer" volumeIdentifier
    (ownershipMetadata rc) (by decide)

/-- Auxiliary: decorating an already decorated object with the same record
changes nothing. -/
theorem decorateObject_idem (fields : List (String × JValue)) (rc : ResourceControl) :
    decorateObject (decorateObject fields rc) rc = decorateObject fields rc :=
  setField_setField fields "Portainer" (ownershipMetadata rc)

/-- Auxiliary: one engine round trip always counts exactly one engine call. -/
theorem executeDockerRequest_engineCalls (p : ProxyTransport) (request : Request) :
    (executeDockerRequest p request).engineCalls = 1 := by
  unfold executeDockerRequest
  cases p.engine request <;> rfl

/-- Claim C1 (code bug): a DELETE on the volume-by-id path /volumes/v2 by a
standard-role caller whose id and team ids are all excluded by the control
record for v2 is NOT answered with the forbidden response.  The by-id branch
of proxyVolumeRequest discards the result of restrictedOperation — which, as
the second conjunct shows, does produce the access-denied response without
contacting the engine — and unconditionally executes the request, so the
engine is invoked once and its response is what the caller receives. -/
theorem C1_denied_delete_still_reaches_engine :
    proxyVolumeRequest
      { engine := fun _ => Except.ok (JValue.str "engineBody"),
        tokenData := fun _ =>
          Except.ok { ID := 7, Username := "stduser", Role := StandardUserRole },
        teamsByUserID := fun _ => Except.ok [],
        resourceControls := Except.ok
          [{ OwnerID := 0, AccessLevel := 0, ID := 1, ResourceID := "v2",
             Users := [], Teams := [9] }] }
      { path := "/volumes/v2", method := "DELETE" } =
      { result := Outcome.ok { body := JValue.str "engineBody", forbidden := false },
        engineCalls := 1 } ∧
    restrictedOperation
      { engine := fun _ => Except.ok (JValue.str "engineBody"),
        tokenData := fun _ =>
          Except.ok { ID := 7, Username := "stduser", Role := StandardUserRole },
        teamsByUserID := fun _ => Except.ok [],
        resourceControls := Except.ok
          [{ OwnerID := 0, AccessLevel := 0, ID := 1, ResourceID := "v2",
             Users := [], Teams := [9] }] }
      { path := "/volumes/v2", method := "DELETE" } "v2" =
      { result := Outcome.ok writeAccessDeniedResponse, engineCalls := 0 } :=
  ⟨rfl, rfl⟩

/-- Claim C10: the filter is not total on arbitrary JSON-like input — a list
element that is not an object, and an element whose identifier field holds a
non-string value, each make the unchecked type assertions of
filterVolumeList panic instead of returning a failure result. -/
theorem C10_filter_panics_on_malformed_payload :
    filterVolumeList [JValue.num 3] [] 0 [] = Outcome.panicked ∧
    filterVolumeList [JValue.obj [(volumeIdentifier, JValue.num 3)]] [] 0 [] =
      Outcome.panicked :=
  ⟨rfl, rfl⟩

/-- Claim C5, counterexample: the execute-then-rewrite strategy CAN return
without contacting the engine — when identity resolution fails,
rewriteOperation returns the error with zero engine calls, refuting the
claim that the strategy never returns without having contacted the engine. -/
theorem C5_counterexample_identity_failure_skips_engine :
    rewriteOperation
      { engine := fun _ => Except.ok JValue.null,
        tokenData := fun _ => Except.error ProxyError.authContextMissing,
        teamsByUserID := fun _ => Except.ok [],
        resourceControls := Except.ok [] }
      { path := "/volumes", method := "GET" } volumeListOperation =
      { result := Outcome.errored ProxyError.authContextMissing, engineCalls := 0 } :=
  rfl

/-- Claim C5, amended: whenever identity resolution and registry lookup
succeed (and, for a non-administrator, membership lookup succeeds), the
execute-then-rewrite strategy always contacts the engine exactly once, for
every operation callback and regardless of the authorization outcome;
collaborator failures during context building abort before engine contact. -/
theorem C5_amended_engine_contacted_once_when_context_builds
    (p : ProxyTransport) (request : Request)
    (operation : RestrictedOperationRequest) (tok : TokenData)
    (rcs : List ResourceControl)
    (htok : p.tokenData request = Except.ok tok)
    (hrcs : p.resourceControls = Except.ok rcs)
    (hteams : tok.Role = AdministratorRole ∨
      ∃ teams, p.teamsByUserID tok.ID = Except.ok teams) :
    (rewriteOperation p request operation).engineCalls = 1 := by
  unfold rewriteOperation
  rw [htok, hrcs]
  by_cases hrole : tok.Role = AdministratorRole
  · simp only [hrole, ne_eq, not_true_eq_false, if_neg, if_false]
    cases h : (executeDockerRequest p request).result <;>
      simp [← executeDockerRequest_engineCalls p request]
  · rcases hteams with hadmin | ⟨teams, hteams⟩
    · exact absurd hadmin hrole
    · simp only [ne_eq, hrole, not_false_eq_true, if_true, hteams]
      cases h : (executeDockerRequest p request).result <;>
        simp [← executeDockerRequest_engineCalls p request]

/-- Witness for the amended claim C5 at a concrete administrator caller. -/
theorem C5_amended_witness :
    (rewriteOperation
      { engine := fun _ => Except.ok JValue.null,
        tokenData := fun _ =>
          Except.ok { ID := 1, Username := "root", Role := AdministratorRole },
        teamsByUserID := fun _ => Except.ok [],
        resourceControls := Except.ok [] }
      { path := "/volumes", method := "GET" } volumeListOperation).engineCalls = 1 :=
  C5_amended_engine_contacted_once_when_context_builds _ _ _ _ _ rfl rfl
    (Or.inl rfl)

/-- Claim C2: the access decision is allow iff the control record is absent,
or the caller is an administrator, or the caller id is among the control
users, or the caller team ids intersect the control teams — and both code
paths evaluate the same shared predicate canUserAccessResource: the restrict
path decision (administrator bypass or shared predicate) and the filter path
decision (the shared predicate, reached only for non-administrators) each
coincide with the spec predicate allowedSpec. -/
theorem C2_access_decision_matches_spec_predicate (isAdmin : Bool)
    (userID : UserID) (groups : List TeamID) (control : Option ResourceControl) :
    (isAdmin || canUserAccessResource userID groups control) =
      allowedSpec isAdmin userID groups control ∧
    canUserAccessResource userID groups control =
      allowedSpec false userID groups control := by
  have key : ∀ c : Option ResourceControl,
      canUserAccessResource userID groups c = allowedSpec false userID groups c := by
    intro c
    cases c with
    | none => rfl
    | some rc =>
      rw [Bool.eq_iff_iff]
      simp only [canUserAccessResource, allowedSpec, Bool.or_eq_true,
        List.any_eq_true, List.elem_iff, decide_eq_true_eq,
        Option.isNone_some, Bool.false_eq_true, false_or]
      constructor
      · rintro (h | ⟨t, ht, hg⟩)
        · exact Or.inl h
        · exact Or.inr ⟨t, hg, ht⟩
      · rintro (h | ⟨g, hg, ht⟩)
        · exact Or.inl h
        · exact Or.inr ⟨g, ht, hg⟩
  refine ⟨?_, key control⟩
  cases isAdmin with
  | true =>
    cases control with
    | none => rfl
    | some rc => simp [allowedSpec]
  | false => simpa using key control

/-- Claim C8: in restrictedOperation, an identity-resolution failure, a
membership-lookup failure and a registry-lookup failure each abort the
operation as an error with zero engine calls; the access-denied outcome, by
contrast, is the successfully returned forbidden response (also with zero
engine calls) and is a different constructor from any error outcome. -/
theorem C8_restrict_errors_abort_before_engine (p : ProxyTransport)
    (request : Request) (resourceID : String) (e : ProxyError) :
    (p.tokenData request = Except.error e →
      restrictedOperation p request resourceID =
        { result := Outcome.errored e, engineCalls := 0 }) ∧
    (∀ tok : TokenData, p.tokenData request = Except.ok tok →
      tok.Role ≠ AdministratorRole →
      p.teamsByUserID tok.ID = Except.error e →
      restrictedOperation p request resourceID =
        { result := Outcome.errored e, engineCalls := 0 }) ∧
    (∀ (tok : TokenData) (teams : List Team),
      p.tokenData request = Except.ok tok →
      tok.Role ≠ AdministratorRole →
      p.teamsByUserID tok.ID = Except.ok teams →
      p.resourceControls = Except.error e →
      restrictedOperation p request resourceID =
        { result := Outcome.errored e, engineCalls := 0 }) ∧
    (∀ (tok : TokenData) (teams : List Team) (rcs : List ResourceControl),
      p.tokenData request = Except.ok tok →
      tok.Role ≠ AdministratorRole →
      p.teamsByUserID tok.ID = Except.ok teams →
      p.resourceControls = Except.ok rcs →
      canUserAccessResource tok.ID (teams.map fun team => team.ID)
        (getResourceControlByResourceID resourceID rcs) = false →
      restrictedOperation p request resourceID =
        { result := Outcome.ok writeAccessDeniedResponse, engineCalls := 0 }) ∧
    (∀ resp : HTTPResponse,
      (Outcome.errored e : Outcome HTTPResponse) ≠ Outcome.ok resp) := by
  refine ⟨?_, ?_, ?_, ?_, ?_⟩
  · intro h
    unfold restrictedOperation
    rw [h]
  · intro tok h1 h2 h3
    unfold restrictedOperation
    rw [h1]
    simp [h2, h3]
  · intro tok teams h1 h2 h3 h4
    unfold restrictedOperation
    rw [h1]
    simp [h2, h3, h4]
  · intro tok teams rcs h1 h2 h3 h4 h5
    unfold restrictedOperation
    rw [h1]
    simp [h2, h3, h4, h5]
  · intro resp h
    cases h

/-- Witness for claim C8: each aborting branch and the denied branch of
restrictedOperation evaluated at concrete environments. -/
theorem C8_witness :
    restrictedOperation
      { engine := fun _ => Except.ok JValue.null,
        tokenData := fun _ => Except.error ProxyError.authContextMissing,
        teamsByUserID := fun _ => Except.ok [],
        resourceControls := Except.ok [] }
      { path := "/volumes/v2", method := "DELETE" } "v2" =
      { result := Outcome.errored ProxyError.authContextMissing, engineCalls := 0 } ∧
    restrictedOperation
      { engine := fun _ => Except.ok JValue.null,
        tokenData := fun _ =>
          Except.ok { ID := 7, Username := "stduser", Role := StandardUserRole },
        teamsByUserID := fun _ => Except.error ProxyError.teamLookupFailed,
        resourceControls := Except.ok [] }
      { path := "/volumes/v2", method := "DELETE" } "v2" =
      { result := Outcome.errored ProxyError.teamLookupFailed, engineCalls := 0 } ∧
    restrictedOperation
      { engine := fun _ => Except.ok JValue.null,
        tokenData := fun _ =>
          Except.ok { ID := 7, Username := "stduser", Role := StandardUserRole },
        teamsByUserID := fun _ => Except.ok [],
        resourceControls := Except.error ProxyError.registryLookupFailed }
      { path := "/volumes/v2", method := "DELETE" } "v2" =
      { result := Outcome.errored ProxyError.registryLookupFailed, engineCalls := 0 } ∧
    restrictedOperation
      { engine := fun _ => Except.ok JValue.null,
        tokenData := fun _ =>
          Except.ok { ID := 7, Username := "stduser", Role := StandardUserRole },
        teamsByUserID := fun _ => Except.ok [],
        resourceControls := Except.ok
          [{ OwnerID := 0, AccessLevel := 0, ID := 1, ResourceID := "v2",
             Users := [], Teams := [9] }] }
      { path := "/volumes/v2", method := "DELETE" } "v2" =
      { result := Outcome.ok writeAccessDeniedResponse, engineCalls := 0 } :=
  ⟨(C8_restrict_errors_abort_before_engine _ _ "v2" ProxyError.authContextMissing).1 rfl,
   (C8_restrict_errors_abort_before_engine _ _ "v2" ProxyError.teamLookupFailed).2.1
     _ rfl (by decide) rfl,
   (C8_restrict_errors_abort_before_engine _ _ "v2" ProxyError.registryLookupFailed).2.2.1
     _ [] rfl (by decide) rfl rfl,
   (C8_restrict_errors_abort_before_engine _ _ "v2" ProxyError.authContextMissing).2.2.2.1
     _ [] _ rfl (by decide) rfl rfl rfl⟩

/-- Claim C3: on any list of well-typed volume documents containing at least
one document whose identifier field is absent, filterVolumeList fails as a
whole with ErrDockerVolumeIdentifierNotFound and returns no list at all; it
never skips the offending document. -/
theorem C3_missing_identifier_fails_whole_operation
    (volumeData : List JValue) (resourceControls : List ResourceControl)
    (userID : UserID) (userTeamIDs : List TeamID) :
    (∀ v ∈ volumeData, wellTypedVolume v) →
    (∃ fields, JValue.obj fields ∈ volumeData ∧
      lookupField fields volumeIdentifier = JValue.null) →
    filterVolumeList volumeData resourceControls userID userTeamIDs =
      Outcome.errored ProxyError.dockerVolumeIdentifierNotFound := by
  induction volumeData with
  | nil =>
    rintro _ ⟨fields, hmem, _⟩
    cases hmem
  | cons v rest ih =>
    rintro hwt ⟨fields0, hmem, hnull0⟩
    rcases hwt v (List.mem_cons_self v rest) with ⟨fields, rfl, hid⟩
    rcases hid with hnull | ⟨s, hs⟩
    · simp [filterVolumeList, hnull]
    · have hrest : filterVolumeList rest resourceControls userID userTeamIDs =
          Outcome.errored ProxyError.dockerVolumeIdentifierNotFound := by
        apply ih (fun w hw => hwt w (List.mem_cons_of_mem _ hw))
        rcases List.mem_cons.mp hmem with heq | hmem0
        · injection heq with hfields
          subst hfields
          rw [hs] at hnull0
          cases hnull0
        · exact ⟨fields0, hmem0, hnull0⟩
      simp only [filterVolumeList, hs]
      cases hrc : getResourceControlByResourceID s resourceControls with
      | none => rw [hrest]
      | some rc =>
        by_cases hcan : canUserAccessResource userID userTeamIDs (some rc) = true
        · simp only [hcan, if_true]
          rw [hrest]
        · simp only [Bool.not_eq_true] at hcan
          simp only [hcan, Bool.false_eq_true, if_false]
          exact hrest

/-- Claim C6: whenever filterVolumeList succeeds, the output has length at
most that of the input, and the kept documents appear in the same relative
order as in the input — the output is a sublist of the input list with each
document taken in its kept form (decorated when a control record matches its
identifier, unchanged otherwise). -/
theorem C6_filter_shortens_and_preserves_order
    (volumeData : List JValue) (resourceControls : List ResourceControl)
    (userID : UserID) (userTeamIDs : List TeamID) (out : List JValue) :
    filterVolumeList volumeData resourceControls userID userTeamIDs =
      Outcome.ok out →
    out.length ≤ volumeData.length ∧
      List.Sublist out (volumeData.map (decorateIfMatched resourceControls)) := by
  induction volumeData generalizing out with
  | nil =>
    intro h
    injection h with h
    subst h
    exact ⟨Nat.le_refl 0, List.Sublist.refl []⟩
  | cons v rest ih =>
    intro h
    have step : List.Sublist out
        ((v :: rest).map (decorateIfMatched resourceControls)) := by
      cases v with
      | obj fields =>
        cases hid : lookupField fields volumeIdentifier with
        | null => simp [filterVolumeList, hid] at h
        | str s =>
          simp only [filterVolumeList, hid] at h
          cases hrc : getResourceControlByResourceID s resourceControls with
          | none =>
            simp only [hrc] at h
            cases hr : filterVolumeList rest resourceControls userID userTeamIDs with
            | ok l =>
              simp only [hr] at h
              injection h with h
              subst h
              have hd : decorateIfMatched resourceControls (JValue.obj fields) =
                  JValue.obj fields := by
                simp [decorateIfMatched, hid, hrc]
              simpa [hd] using List.Sublist.cons₂ (JValue.obj fields) (ih l hr).2
            | errored e => simp [hr] at h
            | panicked => simp [hr] at h
          | some rc =>
            simp only [hrc] at h
            by_cases hcan : canUserAccessResource userID userTeamIDs (some rc) = true
            · rw [if_pos hcan] at h
              cases hr : filterVolumeList rest resourceControls userID userTeamIDs with
              | ok l =>
                simp only [hr] at h
                injection h with h
                subst h
                have hd : decorateIfMatched resourceControls (JValue.obj fields) =
                    JValue.obj (decorateObject fields rc) := by
                  simp [decorateIfMatched, hid, hrc]
                simpa [hd] using
                  List.Sublist.cons₂ (JValue.obj (decorateObject fields rc)) (ih l hr).2
              | errored e => simp [hr] at h
              | panicked => simp [hr] at h
            · rw [if_neg hcan] at h
              exact List.Sublist.cons _ (ih out h).2
        | bool b => simp [filterVolumeList, hid] at h
        | num n => simp [filterVolumeList, hid] at h
        | arr l => simp [filterVolumeList, hid] at h
        | obj o => simp [filterVolumeList, hid] at h
      | null => simp [filterVolumeList] at h
      | bool b => simp [filterVolumeList] at h
      | num n => simp [filterVolumeList] at h
      | str s => simp [filterVolumeList] at h
      | arr l => simp [filterVolumeList] at h
    refine ⟨?_, step⟩
    simpa using step.length_le

/-- Claim C7: a document in the input whose identifier matches no control
record is present, unchanged, in any successful filter output, for every
caller identity and team membership. -/
theorem C7_public_document_kept_unchanged
    (volumeData : List JValue) (resourceControls : List ResourceControl)
    (userID : UserID) (userTeamIDs : List TeamID) (out : List JValue)
    (fields : List (String × JValue)) (volumeID : String) :
    filterVolumeList volumeData resourceControls userID userTeamIDs =
      Outcome.ok out →
    JValue.obj fields ∈ volumeData →
    lookupField fields volumeIdentifier = JValue.str volumeID →
    getResourceControlByResourceID volumeID resourceControls = none →
    JValue.obj fields ∈ out := by
  induction volumeData generalizing out with
  | nil =>
    intro _ hmem _ _
    cases hmem
  | cons v rest ih =>
    intro h hmem hid hrc
    rcases List.mem_cons.mp hmem with heq | hmem0
    · subst heq
      simp only [filterVolumeList, hid, hrc] at h
      cases hr : filterVolumeList rest resourceControls userID userTeamIDs with
      | ok l =>
        simp only [hr] at h
        injection h with h
        subst h
        exact List.mem_cons_self _ _
      | errored e => simp [hr] at h
      | panicked => simp [hr] at h
    · cases v with
      | obj fields1 =>
        cases hid1 : lookupField fields1 volumeIdentifier with
        | null => simp [filterVolumeList, hid1] at h
        | str s1 =>
          simp only [filterVolumeList, hid1] at h
          cases hrc1 : getResourceControlByResourceID s1 resourceControls with
          | none =>
            simp only [hrc1] at h
            cases hr : filterVolumeList rest resourceControls userID userTeamIDs with
            | ok l =>
              simp only [hr] at h
              injection h with h
              subst h
              exact List.mem_cons_of_mem _ (ih l hr hmem0 hid hrc)
            | errored e => simp [hr] at h
            | panicked => simp [hr] at h
          | some rc =>
            simp only [hrc1] at h
            by_cases hcan : canUserAccessResource userID userTeamIDs (some rc) = true
            · rw [if_pos hcan] at h
              cases hr : filterVolumeList rest resourceControls userID userTeamIDs with
              | ok l =>
                simp only [hr] at h
                injection h with h
                subst h
                exact List.mem_cons_of_mem _ (ih l hr hmem0 hid hrc)
              | errored e => simp [hr] at h
              | panicked => simp [hr] at h
            · rw [if_neg hcan] at h
              exact ih out h hmem0 hid hrc
        | bool b => simp [filterVolumeList, hid1] at h
        | num n => simp [filterVolumeList, hid1] at h
        | arr l => simp [filterVolumeList, hid1] at h
        | obj o => simp [filterVolumeList, hid1] at h
      | null => simp [filterVolumeList] at h
      | bool b => simp [filterVolumeList] at h
      | num n => simp [filterVolumeList] at h
      | str s => simp [filterVolumeList] at h
      | arr l => simp [filterVolumeList] at h

/-- Claim C9: the list filter is deterministic — equal inputs give equal
outcomes — and idempotent on kept items: filtering a successful output again
with the same caller, control records and memberships returns that output
unchanged, hence the same set of kept documents. -/
theorem C9_filter_deterministic_and_idempotent
    (volumeData : List JValue) (resourceControls : List ResourceControl)
    (userID : UserID) (userTeamIDs : List TeamID) :
    (∀ o1 o2 : Outcome (List JValue),
      filterVolumeList volumeData resourceControls userID userTeamIDs = o1 →
      filterVolumeList volumeData resourceControls userID userTeamIDs = o2 →
      o1 = o2) ∧
    (∀ out, filterVolumeList volumeData resourceControls userID userTeamIDs =
        Outcome.ok out →
      filterVolumeList out resourceControls userID userTeamIDs =
        Outcome.ok out) := by
  refine ⟨fun o1 o2 h1 h2 => h1.symm.trans h2, ?_⟩
  induction volumeData with
  | nil =>
    intro out h
    injection h with h
    subst h
    rfl
  | cons v rest ih =>
    intro out h
    cases v with
    | obj fields =>
      cases hid : lookupField fields volumeIdentifier with
      | null => simp [filterVolumeList, hid] at h
      | str s =>
        simp only [filterVolumeList, hid] at h
        cases hrc : getResourceControlByResourceID s resourceControls with
        | none =>
          simp only [hrc] at h
          cases hr : filterVolumeList rest resourceControls userID userTeamIDs with
          | ok l =>
            simp only [hr] at h
            injection h with h
            subst h
            simp only [filterVolumeList, hid, hrc, ih l hr]
          | errored e => simp [hr] at h
          | panicked => simp [hr] at h
        | some rc =>
          simp only [hrc] at h
          by_cases hcan : canUserAccessResource userID userTeamIDs (some rc) = true
          · rw [if_pos hcan] at h
            cases hr : filterVolumeList rest resourceControls userID userTeamIDs with
            | ok l =>
              simp only [hr] at h
              injection h with h
              subst h
              have hid2 : lookupField (decorateObject fields rc) volumeIdentifier =
                  JValue.str s := by
                rw [lookupField_decorateObject, hid]
              simp only [filterVolumeList, hid2, hrc, hcan, if_true, ih l hr,
                decorateObject_idem]
            | errored e => simp [hr] at h
            | panicked => simp [hr] at h
          · rw [if_neg hcan] at h
            exact ih out h
      | bool b => simp [filterVolumeList, hid] at h
      | num n => simp [filterVolumeList, hid] at h
      | arr l => simp [filterVolumeList, hid] at h
      | obj o => simp [filterVolumeList, hid] at h
    | null => simp [filterVolumeList] at h
    | bool b => simp [filterVolumeList] at h
    | num n => simp [filterVolumeList] at h
    | str s => simp [filterVolumeList] at h
    | arr l => simp [filterVolumeList] at h

/-- Auxiliary: a successful decoration pass returns exactly the input list
with each document taken in its decorated form. -/
theorem decorateVolumeList_ok (volumeData : List JValue)
    (resourceControls : List ResourceControl) (out : List JValue) :
    decorateVolumeList volumeData resourceControls = Outcome.ok out →
    out = volumeData.map (decorateIfMatched resourceControls) := by
  induction volumeData generalizing out with
  | nil =>
    intro h
    injection h with h
    subst h
    rfl
  | cons v rest ih =>
    intro h
    cases v with
    | obj fields =>
      cases hid : lookupField fields volumeIdentifier with
      | null => simp [decorateVolumeList, hid] at h
      | str s =>
        simp only [decorateVolumeList, hid] at h
        cases hr : decorateVolumeList rest resourceControls with
        | ok l =>
          simp only [hr] at h
          injection h with h
          subst h
          cases hrc : getResourceControlByResourceID s resourceControls with
          | none => simp [decorateIfMatched, hid, hrc, ih l hr]
          | some rc => simp [decorateIfMatched, hid, hrc, ih l hr]
        | errored e => simp [hr] at h
        | panicked => simp [hr] at h
      | bool b => simp [decorateVolumeList, hid] at h
      | num n => simp [decorateVolumeList, hid] at h
      | arr l => simp [decorateVolumeList, hid] at h
      | obj o => simp [decorateVolumeList, hid] at h
    | null => simp [decorateVolumeList] at h
    | bool b => simp [decorateVolumeList] at h
    | num n => simp [decorateVolumeList] at h
    | str s => simp [decorateVolumeList] at h
    | arr l => simp [decorateVolumeList] at h

/-- Claim C4: for an administrator operation context, a successful list
operation returns the full input list in order — no document is dropped,
each document with a matching control record appears decorated with the
ownership annotation, and the rest appear unchanged (decorateIfMatched is
the identity on them). -/
theorem C4_admin_filtered_output_is_whole_input
    (request : Request) (response : HTTPResponse)
    (ctx : RestrictedOperationContext) (volumeData : List JValue)
    (newResponse : HTTPResponse)
    (hadmin : ctx.isAdmin = true)
    (hbody : response.body = JValue.arr volumeData)
    (hop : volumeListOperation request response ctx = Outcome.ok newResponse) :
    newResponse.body =
      JValue.arr (volumeData.map (decorateIfMatched ctx.resourceControls)) ∧
    (volumeData.map (decorateIfMatched ctx.resourceControls)).length =
      volumeData.length := by
  refine ⟨?_, by simp⟩
  simp only [volumeListOperation, hbody, hadmin, if_true] at hop
  cases hd : decorateVolumeList volumeData ctx.resourceControls with
  | ok l =>
    simp only [hd] at hop
    injection hop with hop
    subst hop
    rw [decorateVolumeList_ok volumeData ctx.resourceControls l hd]
  | errored e => simp [hd] at hop
  | panicked => simp [hd] at hop

/-- Concrete input list for the claim C3 witness: one well-formed volume and
one volume object whose identifier field is absent. -/
def c3docs : List JValue :=
  [JValue.obj [("Name", JValue.str "v1")], JValue.obj []]

/-- Witness for claim C3: on a concrete two-element list whose second
document lacks its identifier field, the filter fails with the
identifier-not-found error. -/
theorem C3_witness :
    (∀ v ∈ c3docs, wellTypedVolume v) ∧
    filterVolumeList c3docs [] 0 [] =
      Outcome.errored ProxyError.dockerVolumeIdentifierNotFound := by
  have hwt : ∀ v ∈ c3docs, wellTypedVolume v := by
    intro v hv
    rcases List.mem_cons.mp hv with rfl | hv
    · exact ⟨[("Name", JValue.str "v1")], rfl, Or.inr ⟨"v1", rfl⟩⟩
    · rcases List.mem_cons.mp hv with rfl | hv
      · exact ⟨[], rfl, Or.inl rfl⟩
      · cases hv
  exact ⟨hwt,
    C3_missing_identifier_fails_whole_operation c3docs [] 0 [] hwt
      ⟨[], List.mem_cons_of_mem _ (List.mem_cons_self _ _), rfl⟩⟩

/-- Concrete control record shared by nobody: scopes v2 to team 9 only. -/
def c4rc : ResourceControl :=
  { OwnerID := 0, AccessLevel := 0, ID := 1, ResourceID := "v2",
    Users := [], Teams := [9] }

/-- Concrete administrator operation context for the claim C4 witness. -/
def c4ctx : RestrictedOperationContext :=
  { isAdmin := true, userID := 1, userTeamIDs := [], resourceControls := [c4rc] }

/-- Concrete document list for the claim C4 witness. -/
def c4docs : List JValue :=
  [JValue.obj [("Name", JValue.str "v1")], JValue.obj [("Name", JValue.str "v2")]]

/-- Concrete rewritten response for the claim C4 witness: both documents
kept, the controlled one decorated. -/
def c4new : HTTPResponse :=
  { body := JValue.arr
      [JValue.obj [("Name", JValue.str "v1")],
       JValue.obj (decorateObject [("Name", JValue.str "v2")] c4rc)],
    forbidden := false }

/-- Witness for claim C4: the administrator list operation evaluated on a
concrete two-element list with one matching control record. -/
theorem C4_witness :
    c4new.body =
      JValue.arr (c4docs.map (decorateIfMatched c4ctx.resourceControls)) ∧
    (c4docs.map (decorateIfMatched c4ctx.resourceControls)).length =
      c4docs.length :=
  C4_admin_filtered_output_is_whole_input
    { path := "/volumes", method := "GET" }
    { body := JValue.arr c4docs, forbidden := false }
    c4ctx c4docs c4new rfl rfl rfl

/-- Concrete control record for the claim C6 witness. -/
def c6rc : ResourceControl :=
  { OwnerID := 0, AccessLevel := 0, ID := 1, ResourceID := "v2",
    Users := [], Teams := [9] }

/-- Witness for claim C6: a standard caller outside team 9 filtering a
two-element list keeps only the public document, in order. -/
theorem C6_witness :
    ([JValue.obj [("Name", JValue.str "v1")]] : List JValue).length ≤
      ([JValue.obj [("Name", JValue.str "v1")],
        JValue.obj [("Name", JValue.str "v2")]] : List JValue).length ∧
    List.Sublist [JValue.obj [("Name", JValue.str "v1")]]
      (([JValue.obj [("Name", JValue.str "v1")],
         JValue.obj [("Name", JValue.str "v2")]] : List JValue).map
        (decorateIfMatched [c6rc])) :=
  C6_filter_shortens_and_preserves_order
    [JValue.obj [("Name", JValue.str "v1")], JValue.obj [("Name", JValue.str "v2")]]
    [c6rc] 7 [] [JValue.obj [("Name", JValue.str "v1")]] rfl

/-- Concrete control record for the claim C7 witness. -/
def c7rc : ResourceControl :=
  { OwnerID := 0, AccessLevel := 0, ID := 1, ResourceID := "v2",
    Users := [], Teams := [9] }

/-- Witness for claim C7: the public document v1, matched by no control
record, is present unchanged in the filtered output of a caller excluded
from v2. -/
theorem C7_witness :
    JValue.obj [("Name", JValue.str "v1")] ∈
      ([JValue.obj [("Name", JValue.str "v1")]] : List JValue) :=
  C7_public_document_kept_unchanged
    [JValue.obj [("Name", JValue.str "v1")], JValue.obj [("Name", JValue.str "v2")]]
    [c7rc] 7 [] [JValue.obj [("Name", JValue.str "v1")]]
    [("Name", JValue.str "v1")] "v1" rfl (List.mem_cons_self _ _) rfl rfl

/-- Concrete control record for the claim C9 witness: v2 scoped to team 9. -/
def c9rc : ResourceControl :=
  { OwnerID := 0, AccessLevel := 0, ID := 1, ResourceID := "v2",
    Users := [], Teams := [9] }

/-- Witness for claim C9: determinism and idempotence of the filter at a
concrete input whose caller belongs to team 9, so the document is kept
decorated, and refiltering the decorated output returns it unchanged. -/
theorem C9_witness :
    (Outcome.ok [JValue.obj (decorateObject [("Name", JValue.str "v2")] c9rc)] =
      Outcome.ok [JValue.obj (decorateObject [("Name", JValue.str "v2")] c9rc)]) ∧
    filterVolumeList
      [JValue.obj (decorateObject [("Name", JValue.str "v2")] c9rc)] [c9rc] 7 [9] =
      Outcome.ok [JValue.obj (decorateObject [("Name", JValue.str "v2")] c9rc)] :=
  ⟨(C9_filter_deterministic_and_idempotent
      [JValue.obj [("Name", JValue.str "v2")]] [c9rc] 7 [9]).1
      (Outcome.ok [JValue.obj (decorateObject [("Name", JValue.str "v2")] c9rc)])
      (Outcome.ok [JValue.obj (decorateObject [("Name", JValue.str "v2")] c9rc)])
      rfl rfl,
   (C9_filter_deterministic_and_idempotent
      [JValue.obj [("Name", JValue.str "v2")]] [c9rc] 7 [9]).2
      [JValue.obj (decorateObject [("Name", JValue.str "v2")] c9rc)] rfl⟩

end Portainer
